import Mathlib

/-
Verification development for the coordinate-general repository.

The definitions below are shallow embeddings of the repository's core
algorithms:

- the filter-chain cache-key derivation and generation-plan calculator,
  which exists in two variants in the repository:
  `src/utils/filterCacheManager.js` (namespace `FCM` below; the input list
  is taken in processing order and the per-step key is the key of the
  prefix `slice(0, stepIndex + 1)`), and
  `src/unnamed/part_006` (namespace `FCMRev` below; the input list is in
  visual top-to-bottom order and `buildCacheKey` reverses it before
  joining, `getCacheKeyForStep` takes the suffix `slice(stepIndex)`);
- the grid ring coordinate enumeration of `src/unnamed/part_005`;
- the bridge dependency/round tables of `src/utils/bridgeGenerator.js`;
- the retrying task executors of `src/unnamed/part_003`
  (`generateCoordinate`) and `src/pages/bridge-generate.js`
  (`generatePosition`), and the sequential filter-stack executor
  `applyFilterStack` of `src/pages/filters.js`.

JavaScript idioms are modelled as follows: a cache object is a partial map
`String → Option String`; the truthiness test `if (cache[key])` holds
exactly for a present, non-empty string; fallible lookups return `Option`;
`Math.round(i / 25) * 25` on an integer `i` is floor((2*i + 25) / 50) * 25.
-/

/-! ## Cache model -/

/-- A filter-session cache: a JS object mapping cache keys to generated
texts, modelled as a partial map. -/
abbrev Cache := String → Option String

/-- JS truthiness of a cache read (or of an optional text): `undefined` and
the empty string are falsy, every other string is truthy. -/
def truthy : Option String → Bool
  | none => false
  | some s => s ≠ ""

/-- Functional update of a cache, modelling `cache[key] = text`. -/
def updateCache (c : Cache) (k v : String) : Cache :=
  fun x => if x = k then some v else c x

/-! ## Filter-chain data model -/

/-- An enabled filter layer as consumed by the cache-key helpers:
`{ id, intensity }` (the remaining JS fields play no role in the key or
plan computation). -/
structure FilterLayer where
  id : String
  intensity : Int
deriving DecidableEq, Repr

/-- One step of a generation plan, as pushed by `calculateGenerationPlan`
in both variants (`src/utils/filterCacheManager.js` lines 88-96,
`src/unnamed/part_006` lines 96-104).  The `filter` field of the JS object
merely repeats the layer record and is omitted. -/
structure PlanStep where
  stepIndex : Nat
  inputText : Option String
  filterId : String
  intensity : Int
  cacheKey : String
  previousKey : String
deriving DecidableEq, Repr

/-- JS `Math.round(i / 25) * 25` for an integer intensity `i`:
round-half-up of `i / 25`, scaled back by 25. -/
def roundIntensity (i : Int) : Int :=
  ((2 * i + 25).fdiv 50) * 25

/-- The `id-intensity` segment contributed by one layer
(`` `${f.id}-${roundedIntensity}` `` in both variants). -/
def layerPart (f : FilterLayer) : String :=
  f.id ++ "-" ++ toString (roundIntensity f.intensity)

/-- JS `Array.prototype.join('|')`: empty list gives `""`. -/
def joinParts : List String → String
  | [] => ""
  | [x] => x
  | x :: y :: xs => x ++ "|" ++ joinParts (y :: xs)

/-- The shared loop body of `calculateGenerationPlan` in both variants
(`src/utils/filterCacheManager.js` lines 78-101, `src/unnamed/part_006`
lines 86-109): for each index of `indices` in order, build the step's key
by appending this layer's segment to the previous key (no `original|`
prefix for the first segment) and push a step whose `inputText` is the
reusable text (`currentText` is never reassigned inside the JS loop).
The two variants differ only in the order of `indices`. -/
def planSteps (fs : List FilterLayer) : List Nat → String → Option String → List PlanStep
  | [], _, _ => []
  | i :: rest, prevKey, curText =>
    match fs[i]? with
    | none => []
    | some f =>
      let ri := roundIntensity f.intensity
      let fk := f.id ++ "-" ++ toString ri
      let ck := if prevKey = "original" then fk else prevKey ++ "|" ++ fk
      ⟨i, curText, f.id, ri, ck, prevKey⟩ :: planSteps fs rest ck curText

/-- The record returned by `findReusableSteps` in both variants. -/
structure Reusable where
  reusableUpToIndex : Int
  cacheKey : String
  text : Option String
  needsGenerationFromIndex : Int
deriving Repr

namespace FCM

/-- `buildCacheKey` of `src/utils/filterCacheManager.js` (lines 5-16):
joins the layers' `id-intensity` segments with `|` in the order given;
empty list gives `"original"`. -/
def buildCacheKey (activeFilters : List FilterLayer) : String :=
  if activeFilters.isEmpty then "original"
  else joinParts (activeFilters.map layerPart)

/-- `getCacheKeyForStep` of `src/utils/filterCacheManager.js` (lines
19-26): the key of the prefix `slice(0, stepIndex + 1)`. -/
def getCacheKeyForStep (activeFilters : List FilterLayer) (stepIndex : Int) : String :=
  if activeFilters.isEmpty ∨ stepIndex < 0 then "original"
  else buildCacheKey (activeFilters.take (stepIndex.toNat + 1))

/-- The scanning loop of `findReusableSteps` (lines 43-55): walk the given
indices in order, remembering the last cached prefix key, and stop at the
first index whose key is not cached.  Returns
`(needsGenerationFromIndex, matchKey, matchText)`; when every index is
cached the stop index is `fs.length`. -/
def findAux (fs : List FilterLayer) (c : Cache) :
    List Nat → String × Option String → Nat × String × Option String
  | [], (mk, mt) => (fs.length, mk, mt)
  | i :: rest, (mk, mt) =>
    let k := getCacheKeyForStep fs i
    if truthy (c k) then findAux fs c rest (k, c k) else (i, mk, mt)

/-- `findReusableSteps` of `src/utils/filterCacheManager.js` (lines
29-63).  (The JS empty-list early return carries no
`needsGenerationFromIndex` field and is never consumed by
`calculateGenerationPlan`, which handles the empty list first; we
materialise it as 0.) -/
def findReusableSteps (fs : List FilterLayer) (c : Cache) : Reusable :=
  if fs.isEmpty then ⟨-1, "original", c "original", 0⟩
  else
    let r := findAux fs c (List.range fs.length) ("original", c "original")
    ⟨(r.1 : Int) - 1, r.2.1, r.2.2, (r.1 : Int)⟩

/-- `calculateGenerationPlan` of `src/utils/filterCacheManager.js` (lines
66-104): from where the cache ends, walk the remaining indices upward. -/
def calculateGenerationPlan (activeFilters : List FilterLayer) (c : Cache) : List PlanStep :=
  if activeFilters.isEmpty then []
  else
    let r := findReusableSteps activeFilters c
    planSteps activeFilters
      (List.range' r.needsGenerationFromIndex.toNat
        (activeFilters.length - r.needsGenerationFromIndex.toNat))
      r.cacheKey r.text

/-- `getInvalidatedCacheKeys` of `src/utils/filterCacheManager.js` (lines
126-138): every step key at index `changedIndex` or later that is
currently cached. -/
def getInvalidatedCacheKeys (activeFilters : List FilterLayer) (changedIndex : Nat)
    (c : Cache) : List String :=
  (List.range' changedIndex (activeFilters.length - changedIndex)).filterMap fun i =>
    let k := getCacheKeyForStep activeFilters i
    if truthy (c k) then some k else none

/-- `clearInvalidatedCache` of `src/utils/filterCacheManager.js` (lines
141-151): delete every listed key except `"original"`. -/
def clearInvalidatedCache (c : Cache) (keysToInvalidate : List String) : Cache :=
  keysToInvalidate.foldl
    (fun acc k => if k = "original" then acc else fun x => if x = k then none else acc x) c

end FCM

namespace FCMRev

/-- `buildCacheKey` of `src/unnamed/part_006` (lines 7-20): reverse the
visual top-to-bottom list to processing (bottom-to-top) order, then join
the `id-intensity` segments with `|`; empty list gives `"original"`. -/
def buildCacheKey (activeFilters : List FilterLayer) : String :=
  if activeFilters.isEmpty then "original"
  else joinParts (activeFilters.reverse.map layerPart)

/-- `getCacheKeyForStep` of `src/unnamed/part_006` (lines 24-33): the key
of the suffix `slice(stepIndex)` (this layer and everything below it). -/
def getCacheKeyForStep (activeFilters : List FilterLayer) (stepIndex : Int) : String :=
  if activeFilters.isEmpty ∨ stepIndex < 0 then "original"
  else buildCacheKey (activeFilters.drop stepIndex.toNat)

/-- The scanning loop of `findReusableSteps` of `src/unnamed/part_006`
(lines 52-62): walk the given indices (bottom-to-top, i.e. descending)
and return the first one whose step key is cached, together with that
key. -/
def findScan (fs : List FilterLayer) (c : Cache) : List Nat → Option (Nat × String)
  | [] => none
  | i :: rest =>
    let k := getCacheKeyForStep fs i
    if truthy (c k) then some (i, k) else findScan fs c rest

/-- `findReusableSteps` of `src/unnamed/part_006` (lines 36-70). -/
def findReusableSteps (fs : List FilterLayer) (c : Cache) : Reusable :=
  if fs.isEmpty then ⟨0, "original", c "original", 0⟩
  else
    match findScan fs c (List.range fs.length).reverse with
    | some (i, k) => ⟨(i : Int), k, c k, (i : Int) - 1⟩
    | none => ⟨(fs.length : Int), "original", c "original", (fs.length : Int) - 1⟩

/-- The descending index list `needsGenerationFromIndex, ..., 1, 0` walked
by the plan loop of `src/unnamed/part_006` (lines 86-109); empty when
`needsGenerationFromIndex` is negative. -/
def downIndices (n : Int) : List Nat :=
  if n < 0 then [] else (List.range (n.toNat + 1)).reverse

/-- `calculateGenerationPlan` of `src/unnamed/part_006` (lines 73-112):
generate from where the cache ends down to index 0 (the top layer). -/
def calculateGenerationPlan (activeFilters : List FilterLayer) (c : Cache) : List PlanStep :=
  if activeFilters.isEmpty then []
  else
    let r := findReusableSteps activeFilters c
    planSteps activeFilters (downIndices r.needsGenerationFromIndex) r.cacheKey r.text

end FCMRev

/-! ## Coordinate space (grid feature) -/

/-- The string identity `` `${x},${y}` `` of a grid coordinate. -/
def coordStr (x y : Int) : String :=
  toString x ++ "," ++ toString y

/-- The integers `a, a+1, ..., b` (a JS `for (let v = a; v <= b; v++)`
loop). -/
def intRange (a b : Int) : List Int :=
  (List.range (b - a + 1).toNat).map fun k => a + k

/-- `getRingCoordinates` of `src/unnamed/part_005` (lines 77-96): ring 0
is `["0,0"]`; ring `n > 0` collects, in x-major order, every `"x,y"` with
`x, y ∈ [-n, n]` and `max(|x|, |y|) = n`. -/
def getRingCoordinates (ringNumber : Nat) : List String :=
  if ringNumber = 0 then ["0,0"]
  else
    (intRange (-(ringNumber : Int)) ringNumber).flatMap fun x =>
      (intRange (-(ringNumber : Int)) ringNumber).filterMap fun y =>
        if max x.natAbs y.natAbs = ringNumber then some (coordStr x y) else none

/-- `getCoordinatesUpToRing` of `src/unnamed/part_005` (lines 99-105):
concatenate rings `0, ..., maxRing`. -/
def getCoordinatesUpToRing (maxRing : Nat) : List String :=
  (List.range (maxRing + 1)).flatMap getRingCoordinates

/-- `getAllCoordinates` of `src/unnamed/part_005` (lines 108-110). -/
def getAllCoordinates : List String :=
  getCoordinatesUpToRing 5

/-- Reference enumeration of the 121 coordinate strings of the square
grid `[-5,5] × [-5,5]`, used to state what the rings' union must be. -/
def allGridCoords : List String :=
  (intRange (-5) 5).flatMap fun x => (intRange (-5) 5).map fun y => coordStr x y

/-! ## Bridge space -/

/-- `getPositionDependencies` of `src/utils/bridgeGenerator.js` (lines
28-43): the fixed dependency table; JS returns `null` (here `none`) for
any position outside the table, anchors 0 and 10 included. -/
def getPositionDependencies (position : Int) : Option (Int × Int) :=
  if position = 5 then some (0, 10)
  else if position = 2 then some (0, 5)
  else if position = 7 then some (5, 10)
  else if position = 1 then some (0, 2)
  else if position = 3 then some (2, 5)
  else if position = 6 then some (5, 7)
  else if position = 8 then some (7, 10)
  else if position = 4 then some (3, 5)
  else if position = 9 then some (8, 10)
  else none

/-- `getPositionRound` of `src/utils/bridgeGenerator.js` (lines 103-109):
round 1 = {5}, round 2 = {2,7}, round 3 = {1,3,6,8}, round 4 = {4,9},
anchors and everything else give 0. -/
def getPositionRound (position : Int) : Int :=
  if position = 5 then 1
  else if position = 2 ∨ position = 7 then 2
  else if position ∈ ([1, 3, 6, 8] : List Int) then 3
  else if position = 4 ∨ position = 9 then 4
  else 0

/-! ## Retrying task executors (grid and bridge) -/

/-- Terminal and transient task states used by the generation pages. -/
inductive GenStatus where
  | pending
  | generating
  | complete
  | error
deriving DecidableEq, Repr

/-- The retry loop shared by `generateCoordinate` of `src/unnamed/part_003`
(lines 410-463) and `generatePosition` of `src/pages/bridge-generate.js`
(lines 163-231): up to `remaining` attempts are made, each outcome given
by the oracle `g` applied to the attempt number; the first success returns
status `complete`, and exhausting the retries returns status `error`.
The result's second component counts the attempts actually made (backoff
delays are timing-only and not modelled). -/
def retryLoop (g : Nat → Except String String) : Nat → Nat → GenStatus × Nat
  | 0, attempt => (.error, attempt)
  | remaining + 1, attempt =>
    match g attempt with
    | .ok _ => (.complete, attempt + 1)
    | .error _ => retryLoop g remaining (attempt + 1)

/-- `generateCoordinate` of `src/unnamed/part_003` (lines 410-463):
`maxRetries = 3`, starting at attempt 0. -/
def generateCoordinate (g : Nat → Except String String) : GenStatus × Nat :=
  retryLoop g 3 0

/-- `generatePosition` of `src/pages/bridge-generate.js` (lines 163-231):
if either dependency text is missing (JS-falsy) the position is marked
`error` without any generation attempt; otherwise the same 3-attempt
retry loop runs. -/
def generatePosition (g : Nat → Except String String)
    (textLeft textRight : Option String) : GenStatus × Nat :=
  if truthy textLeft = false ∨ truthy textRight = false then (.error, 0)
  else retryLoop g 3 0

/-- The per-plan task sweep of `generateAllCoordinates` /
`generateMissingCoordinates` in `src/unnamed/part_003` (lines 380-407):
every coordinate of the plan gets its own `generateCoordinate` run whose
outcome depends only on that coordinate's oracle (batching in pairs and
inter-batch delays affect timing only, not which tasks run). -/
def runAllTasks (g : String → Nat → Except String String)
    (coords : List String) : List (String × (GenStatus × Nat)) :=
  coords.map fun cd => (cd, generateCoordinate (g cd))

/-! ## Sequential filter-stack executor -/

/-- The observable outcome of one `applyFilterStack` run
(`src/pages/filters.js` lines 921-1026, second page variant):
the write-through cache, the `failedSteps` map, the `error` banner, the
`finalResult`, and the trace of `stepIndex`es for which a generation call
was issued. -/
structure StackResult where
  cache : Cache
  failedSteps : List (String × String)
  errMsg : Option String
  finalResult : Option String
  attempted : List Nat

/-- The step loop of `applyFilterStack` (`src/pages/filters.js` lines
953-1005): run the plan's steps in order; on success write the result
under the step's cache key and patch the next step's `inputText` with the
produced text (carried here as `patch`, applied to the head step exactly
as `generationPlan[i + 1].inputText = result.text` is); on failure record
the step's key and message in `failedSteps`, set the error banner
`Generation failed at step ⟨i+1⟩: ⟨message⟩`, and return without touching
the remaining steps.  `g` maps a step's (inputText, filterId, intensity)
to the generation outcome. -/
def runStackAux (g : Option String → String → Int → Except String String) :
    List PlanStep → Cache → Nat → Option String → Option String → List Nat → StackResult
  | [], c, _, lastText, _, trace =>
    ⟨c, [], none, lastText, trace⟩
  | s :: rest, c, idx, _, patch, trace =>
    let inp := match patch with
      | some t => some t
      | none => s.inputText
    match g inp s.filterId s.intensity with
    | .ok text =>
      runStackAux g rest (updateCache c s.cacheKey text) (idx + 1) (some text) (some text)
        (trace ++ [s.stepIndex])
    | .error m =>
      ⟨c, [(s.cacheKey, m)],
        some ("Generation failed at step " ++ toString (idx + 1) ++ ": " ++ m),
        none, trace ++ [s.stepIndex]⟩

/-- `applyFilterStack` run over a non-trivial generation plan
(`src/pages/filters.js` lines 953-1005). -/
def applyFilterStack (g : Option String → String → Int → Except String String)
    (c : Cache) (plan : List PlanStep) : StackResult :=
  runStackAux g plan c 0 none none []

/-! ## Claim-side reference definitions -/

/-- The value of `{25, 50, 75, 100}` nearest to `i` (claim C1's wording of
the intensity rounding; integer distances never tie between two of these
values). -/
def nearest25 (i : Int) : Int :=
  [(50 : Int), 75, 100].foldl
    (fun best c => if (i - c).natAbs < (i - best).natAbs then c else best) 25

/-- Claim C1's description of `buildCacheKey`: reverse the top-to-bottom
list to bottom-to-top order, round each intensity to the nearest of
`{25, 50, 75, 100}`, join the `id-intensity` segments with `|`, and map
the empty list to `"original"`. -/
def specBuildCacheKey (enabledLayersTopToBottom : List FilterLayer) : String :=
  if enabledLayersTopToBottom.isEmpty then "original"
  else joinParts (enabledLayersTopToBottom.reverse.map fun f =>
    f.id ++ "-" ++ toString (nearest25 f.intensity))

/-! ## Concrete instances used by individual claims -/

/-- Claim C2's active chain: `formalize` at 75 on top, `simplify` at 50 at
the bottom, in the visual top-to-bottom order consumed by
`src/unnamed/part_006`. -/
def fsC2 : List FilterLayer :=
  [⟨"formalize", 75⟩, ⟨"simplify", 50⟩]

/-- Claim C2's cache: exactly the entries `"original"` and
`"simplify-50"`. -/
def cacheC2 : Cache := fun k =>
  if k = "original" then some "the original text"
  else if k = "simplify-50" then some "the simplified text"
  else none

/-- Claim C5's two enabled layers in the processing order consumed by
`src/utils/filterCacheManager.js`: `simplify` at 50 is the bottom-most
layer (index 0, applied first), `formalize` at 75 sits above it. -/
def fsC5 : List FilterLayer :=
  [⟨"simplify", 50⟩, ⟨"formalize", 75⟩]

/-- Claim C5's cache: the original plus both step keys. -/
def cacheC5 : Cache := fun k =>
  if k = "original" then some "the original text"
  else if k = "simplify-50" then some "the simplified text"
  else if k = "simplify-50|formalize-75" then some "the formal simplified text"
  else none

/-- Claim C8's witness chain: a single `simplify` layer at 50. -/
def fsC8 : List FilterLayer :=
  [⟨"simplify", 50⟩]

/-- Claim C8's witness cache: the original plus the chain's only key. -/
def cacheC8 : Cache := fun k =>
  if k = "original" then some "the original text"
  else if k = "simplify-50" then some "the simplified text"
  else none

/-- Claim C10's witness cache: only the original text is present. -/
def cacheC10 : Cache := fun k =>
  if k = "original" then some "the original text" else none

/-- Claim C7's witness oracle: the task for coordinate `"0,0"` always
fails with a provider error; every other task succeeds immediately. -/
def gC7 : String → Nat → Except String String := fun cd _ =>
  if cd = "0,0" then Except.error "ProviderError: Overloaded" else Except.ok "generated text"

/-! ## Helper lemmas about cache keys -/

theorem joinParts_concat (xs : List String) (x : String) (h : xs ≠ []) :
    joinParts (xs ++ [x]) = joinParts xs ++ "|" ++ x := by
  induction xs with
  | nil => exact absurd rfl h
  | cons a t ih =>
    cases t with
    | nil => rfl
    | cons b t2 =>
      simp only [List.cons_append, List.append_eq, joinParts]
      simp only [List.cons_append, List.append_eq] at ih
      rw [ih (by simp)]
      simp [String.append_assoc]

theorem dash_mem_layerPart (f : FilterLayer) : '-' ∈ (layerPart f).data := by
  unfold layerPart
  simp only [String.data_append]
  exact List.mem_append.mpr (Or.inl (List.mem_append.mpr (Or.inr (by decide))))

theorem dash_mem_joinParts (x : String) (xs : List String) (hx : '-' ∈ x.data) :
    '-' ∈ (joinParts (x :: xs)).data := by
  cases xs with
  | nil => exact hx
  | cons y t =>
    show '-' ∈ ((x ++ "|" ++ joinParts (y :: t))).data
    simp only [String.data_append]
    exact List.mem_append.mpr (Or.inl (List.mem_append.mpr (Or.inl hx)))

theorem buildCacheKey_ne_original (fs : List FilterLayer) (hne : fs ≠ []) :
    FCM.buildCacheKey fs ≠ "original" := by
  intro heq
  cases fs with
  | nil => exact hne rfl
  | cons f t =>
    have hd : '-' ∈ (FCM.buildCacheKey (f :: t)).data := by
      unfold FCM.buildCacheKey
      simp only [List.isEmpty_cons, Bool.false_eq_true, if_false, List.map_cons]
      exact dash_mem_joinParts _ _ (dash_mem_layerPart f)
    rw [heq] at hd
    exact (by decide : '-' ∉ ("original" : String).data) hd

theorem step_key (fs : List FilterLayer) (i : Nat) (f : FilterLayer) (hf : fs[i]? = some f) :
    (if FCM.buildCacheKey (fs.take i) = "original"
      then f.id ++ "-" ++ toString (roundIntensity f.intensity)
      else FCM.buildCacheKey (fs.take i) ++ "|" ++
        (f.id ++ "-" ++ toString (roundIntensity f.intensity)))
    = FCM.buildCacheKey (fs.take (i + 1)) := by
  have hi : i < fs.length := by
    by_contra hcon
    rw [List.getElem?_eq_none (Nat.le_of_not_lt hcon)] at hf
    cases hf
  have hfs : fs ≠ [] := by
    intro h
    rw [h] at hi
    simp at hi
  have htake : fs.take (i + 1) = fs.take i ++ [f] := by
    rw [List.take_succ, hf]
    rfl
  by_cases h0 : i = 0
  · subst h0
    have hc : FCM.buildCacheKey (fs.take 0) = "original" := rfl
    rw [if_pos hc, htake]
    rfl
  · have hne2 : fs.take i ≠ [] := by
      rw [Ne, List.take_eq_nil_iff]
      push_neg
      exact ⟨h0, hfs⟩
    rw [if_neg (buildCacheKey_ne_original _ hne2), htake]
    unfold FCM.buildCacheKey
    rw [if_neg (by simp [hne2]), if_neg (by simp)]
    rw [List.map_append, List.map_cons, List.map_nil]
    rw [joinParts_concat _ _ (by simpa using And.intro h0 hfs)]
    rfl

theorem getCacheKeyForStep_nat (fs : List FilterLayer) (hfs : fs ≠ []) (i : Nat) :
    FCM.getCacheKeyForStep fs (i : Int) = FCM.buildCacheKey (fs.take (i + 1)) := by
  unfold FCM.getCacheKeyForStep
  rw [if_neg]
  · norm_num
  · push_neg
    constructor
    · simp [hfs]
    · exact Int.natCast_nonneg i

theorem planSteps_key : ∀ (k i : Nat) (fs : List FilterLayer) (mt : Option String),
    i + k ≤ fs.length →
    ∀ s ∈ planSteps fs (List.range' i k) (FCM.buildCacheKey (fs.take i)) mt,
      s.cacheKey = FCM.buildCacheKey (fs.take (s.stepIndex + 1)) ∧ s.stepIndex < fs.length := by
  intro k
  induction k with
  | zero =>
    intro i fs mt hlen s hs
    simp [planSteps] at hs
  | succ n ih =>
    intro i fs mt hlen s hs
    rw [List.range'_succ] at hs
    have hi : i < fs.length := by omega
    have hf : fs[i]? = some fs[i] := List.getElem?_eq_getElem hi
    simp only [planSteps, hf] at hs
    rcases List.mem_cons.mp hs with h1 | h1
    · subst h1
      exact ⟨(step_key fs i fs[i] hf).symm ▸ rfl, hi⟩
    · rw [step_key fs i fs[i] hf] at h1
      exact ih (i + 1) fs mt (by omega) s h1

theorem findAux_spec : ∀ (k i : Nat) (fs : List FilterLayer) (c : Cache) (mt : Option String),
    i + k = fs.length →
    i ≤ (FCM.findAux fs c (List.range' i k) (FCM.buildCacheKey (fs.take i), mt)).1 ∧
    (FCM.findAux fs c (List.range' i k) (FCM.buildCacheKey (fs.take i), mt)).1 ≤ fs.length ∧
    (FCM.findAux fs c (List.range' i k) (FCM.buildCacheKey (fs.take i), mt)).2.1 =
      FCM.buildCacheKey (fs.take
        (FCM.findAux fs c (List.range' i k) (FCM.buildCacheKey (fs.take i), mt)).1) ∧
    ((FCM.findAux fs c (List.range' i k) (FCM.buildCacheKey (fs.take i), mt)).1 < fs.length →
      truthy (c (FCM.getCacheKeyForStep fs
        ((FCM.findAux fs c (List.range' i k)
          (FCM.buildCacheKey (fs.take i), mt)).1 : Int))) = false) := by
  intro k
  induction k with
  | zero =>
    intro i fs c mt hlen
    simp only [List.range'_zero, FCM.findAux]
    refine ⟨by omega, by omega, ?_, by omega⟩
    have : i = fs.length := by omega
    rw [this]
  | succ n ih =>
    intro i fs c mt hlen
    rw [List.range'_succ]
    have hi : i < fs.length := by omega
    have hfs : fs ≠ [] := by
      intro h
      rw [h] at hi
      simp at hi
    simp only [FCM.findAux]
    by_cases ht : truthy (c (FCM.getCacheKeyForStep fs (i : Int))) = true
    · rw [if_pos ht]
      have hkey : FCM.getCacheKeyForStep fs (i : Int) = FCM.buildCacheKey (fs.take (i + 1)) :=
        getCacheKeyForStep_nat fs hfs i
      rw [hkey]
      have := ih (i + 1) fs c (c (FCM.buildCacheKey (fs.take (i + 1)))) (by omega)
      exact ⟨by omega, this.2.1, this.2.2.1, this.2.2.2⟩
    · rw [if_neg ht]
      refine ⟨Nat.le_refl i, by omega, rfl, fun _ => ?_⟩
      exact Bool.not_eq_true _ ▸ (Bool.eq_false_iff.mpr ht)

theorem calcPlan_canon (fs : List FilterLayer) (c : Cache) (he : fs.isEmpty = false) :
    FCM.calculateGenerationPlan fs c =
      planSteps fs
        (List.range' (FCM.findAux fs c (List.range' 0 fs.length) ("original", c "original")).1
          (fs.length -
            (FCM.findAux fs c (List.range' 0 fs.length) ("original", c "original")).1))
        (FCM.findAux fs c (List.range' 0 fs.length) ("original", c "original")).2.1
        (FCM.findAux fs c (List.range' 0 fs.length) ("original", c "original")).2.2 := by
  unfold FCM.calculateGenerationPlan FCM.findReusableSteps
  simp only [he, Bool.false_eq_true, if_false, List.range_eq_range', Int.toNat_natCast]

/-- C10: for every list of enabled layers and every cache, each step
produced by `calculateGenerationPlan` has a `cacheKey` equal to
`getCacheKeyForStep(activeFilters, step.stepIndex)`, so a result written
to the cache under a plan step's key is subsequently found by the
per-layer cache-status lookup (`getLayerStatus` in `src/pages/filters.js`
lines 447-460) for that same layer. -/
theorem plan_keys_match_step_keys_C10 :
    ∀ (activeFilters : List FilterLayer) (c : Cache) (s : PlanStep),
      s ∈ FCM.calculateGenerationPlan activeFilters c →
      s.cacheKey = FCM.getCacheKeyForStep activeFilters (s.stepIndex : Int) := by
  intro fs c s hs
  by_cases he : fs.isEmpty
  · rw [FCM.calculateGenerationPlan, if_pos he] at hs
    simp at hs
  · have hef : fs.isEmpty = false := by simpa using he
    have hfs : fs ≠ [] := by
      intro h
      rw [h] at hef
      simp at hef
    rw [calcPlan_canon fs c hef] at hs
    have spec := findAux_spec fs.length 0 fs c (c "original") (by omega)
    rw [List.take_zero] at spec
    rw [show FCM.buildCacheKey ([] : List FilterLayer) = "original" from rfl] at spec
    obtain ⟨h0, hle, hmk, htr⟩ := spec
    rw [hmk] at hs
    have hres := planSteps_key
      (fs.length - (FCM.findAux fs c (List.range' 0 fs.length) ("original", c "original")).1)
      (FCM.findAux fs c (List.range' 0 fs.length) ("original", c "original")).1
      fs (FCM.findAux fs c (List.range' 0 fs.length) ("original", c "original")).2.2
      (by omega) s hs
    rw [getCacheKeyForStep_nat fs hfs s.stepIndex]
    exact hres.1

/-- Witness for C10 at a concrete input: a single `simplify` layer over a
cache holding only the original text yields a one-step plan whose key
agrees with `getCacheKeyForStep` at index 0. -/
theorem plan_keys_match_step_keys_C10_witness :
    (⟨0, some "the original text", "simplify", 50, "simplify-50", "original"⟩ : PlanStep) ∈
      FCM.calculateGenerationPlan fsC8 cacheC10 ∧
    (⟨0, some "the original text", "simplify", 50, "simplify-50", "original"⟩ :
      PlanStep).cacheKey = FCM.getCacheKeyForStep fsC8 ((0 : Nat) : Int) :=
  ⟨by decide, plan_keys_match_step_keys_C10 fsC8 cacheC10 _ (by decide)⟩

/-- C8: for every list of enabled layers and every cache that already
contains (as truthy entries) every cache key the generation plan for
those layers would produce, `calculateGenerationPlan` returns the empty
plan. -/
theorem plan_empty_when_all_cached_C8 :
    ∀ (activeFilters : List FilterLayer) (c : Cache),
      (∀ s ∈ FCM.calculateGenerationPlan activeFilters c, truthy (c s.cacheKey) = true) →
      FCM.calculateGenerationPlan activeFilters c = [] := by
  intro fs c hall
  by_cases he : fs.isEmpty
  · rw [FCM.calculateGenerationPlan, if_pos he]
  · have hef : fs.isEmpty = false := by simpa using he
    have hfs : fs ≠ [] := by
      intro h
      rw [h] at hef
      simp at hef
    rw [calcPlan_canon fs c hef] at hall ⊢
    have spec := findAux_spec fs.length 0 fs c (c "original") (by omega)
    rw [List.take_zero] at spec
    rw [show FCM.buildCacheKey ([] : List FilterLayer) = "original" from rfl] at spec
    obtain ⟨h0, hle, hmk, htr⟩ := spec
    rcases Nat.lt_or_ge
      (FCM.findAux fs c (List.range' 0 fs.length) ("original", c "original")).1
      fs.length with hlt | hge
    · exfalso
      rw [hmk] at hall
      rw [show fs.length -
          (FCM.findAux fs c (List.range' 0 fs.length) ("original", c "original")).1 =
          (fs.length -
            (FCM.findAux fs c (List.range' 0 fs.length) ("original", c "original")).1 - 1) + 1
        from by omega, List.range'_succ] at hall
      have hf : fs[(FCM.findAux fs c (List.range' 0 fs.length) ("original", c "original")).1]? =
          some fs[(FCM.findAux fs c (List.range' 0 fs.length) ("original", c "original")).1] :=
        List.getElem?_eq_getElem hlt
      simp only [planSteps, hf] at hall
      have hhead := hall _ (List.mem_cons_self _ _)
      simp only [] at hhead
      rw [step_key fs _ _ hf] at hhead
      have hfalse := htr hlt
      rw [getCacheKeyForStep_nat fs hfs] at hfalse
      rw [hhead] at hfalse
      cases hfalse
    · rw [Nat.sub_eq_zero_of_le hge, List.range'_zero]
      rfl

/-- Witness for C8 at a concrete input: a single `simplify-50` layer whose
key is already cached yields the empty plan (so the hypothesis holds
vacuously) and the theorem returns the empty plan. -/
theorem plan_empty_when_all_cached_C8_witness :
    (∀ s ∈ FCM.calculateGenerationPlan fsC8 cacheC8, truthy (cacheC8 s.cacheKey) = true) ∧
    FCM.calculateGenerationPlan fsC8 cacheC8 = [] :=
  ⟨by decide, plan_empty_when_all_cached_C8 fsC8 cacheC8 (by decide)⟩

set_option maxRecDepth 10000 in
set_option maxHeartbeats 4000000 in
/-- C3: for all ring numbers 0 through 5, `getRingCoordinates` returns
exactly the coordinates `(x, y)` of the grid with `max(|x|, |y|)` equal to
the ring number; the six rings are pairwise disjoint, their union is
exactly the 121 integer coordinates of `[-5,5] × [-5,5]`, and their sizes
are 1, 8, 16, 24, 32, 40. -/
theorem ring_coordinates_C3 :
    ((List.range 6).map (fun r => (getRingCoordinates r).length) = [1, 8, 16, 24, 32, 40])
    ∧ (∀ r ∈ List.range 6, ∀ x ∈ intRange (-5) 5, ∀ y ∈ intRange (-5) 5,
        (coordStr x y ∈ getRingCoordinates r ↔ max x.natAbs y.natAbs = r))
    ∧ (∀ r ∈ List.range 6, ∀ s ∈ List.range 6, r ≠ s →
        ∀ cc ∈ getRingCoordinates r, cc ∉ getRingCoordinates s)
    ∧ (∀ x ∈ intRange (-5) 5, ∀ y ∈ intRange (-5) 5, coordStr x y ∈ getAllCoordinates)
    ∧ (∀ cc ∈ getAllCoordinates, cc ∈ allGridCoords)
    ∧ getAllCoordinates.length = 121
    ∧ getAllCoordinates.Nodup := by
  decide

/-- Witness for C3 at concrete inputs: `(3, -2)` lies in ring 3 and not in
ring 2, and `(3, -2)` belongs to the union of the rings. -/
theorem ring_coordinates_C3_witness :
    (coordStr 3 (-2) ∈ getRingCoordinates 3 ↔ max (3 : Int).natAbs ((-2 : Int)).natAbs = 3) ∧
    (coordStr 3 (-2) ∈ getRingCoordinates 3 → coordStr 3 (-2) ∉ getRingCoordinates 2) ∧
    coordStr 3 (-2) ∈ getAllCoordinates :=
  ⟨ring_coordinates_C3.2.1 3 (by decide) 3 (by decide) (-2) (by decide),
   ring_coordinates_C3.2.2.1 3 (by decide) 2 (by decide) (by decide) (coordStr 3 (-2)),
   ring_coordinates_C3.2.2.2.1 3 (by decide) (-2) (by decide)⟩

/-- C4: for every bridge position 1 through 9, both entries of
`getPositionDependencies position` have a strictly lower round number
(per `getPositionRound`, anchors being round 0) than the position itself,
so generating rounds 1 through 4 in order never encounters a position
whose dependency has not yet been generated. -/
theorem bridge_dependency_rounds_C4 : ∀ p : Int, 1 ≤ p → p ≤ 9 →
    ∃ l r, getPositionDependencies p = some (l, r) ∧
      getPositionRound l < getPositionRound p ∧ getPositionRound r < getPositionRound p := by
  intro p h1 h2
  interval_cases p <;> exact ⟨_, _, rfl, by decide, by decide⟩

/-- Witness for C4 at position 4: its dependencies (3 and 5) lie in
strictly earlier rounds. -/
theorem bridge_dependency_rounds_C4_witness :
    ∃ l r, getPositionDependencies 4 = some (l, r) ∧
      getPositionRound l < getPositionRound 4 ∧ getPositionRound r < getPositionRound 4 :=
  bridge_dependency_rounds_C4 4 (by decide) (by decide)

/-- C9: `getPositionDependencies` returns the dependency pair for every
position in `[1, 9]` and fails (returns JS `null`, modelled as `none`)
for every position outside `[1, 9]`, the anchors 0 and 10 included. -/
theorem bridge_dependencies_domain_C9 : ∀ p : Int,
    ((1 ≤ p ∧ p ≤ 9) → (getPositionDependencies p).isSome = true) ∧
    (¬(1 ≤ p ∧ p ≤ 9) → getPositionDependencies p = none) := by
  intro p
  constructor
  · rintro ⟨h1, h2⟩
    interval_cases p <;> decide
  · intro h
    unfold getPositionDependencies
    split_ifs <;> first | rfl | omega

/-- Witness for C9 at concrete positions: 4 has a dependency pair while
the anchors 0 and 10 yield `none`. -/
theorem bridge_dependencies_domain_C9_witness :
    (getPositionDependencies 4).isSome = true ∧
    getPositionDependencies 0 = none ∧
    getPositionDependencies 10 = none :=
  ⟨(bridge_dependencies_domain_C9 4).1 (by constructor <;> decide),
   (bridge_dependencies_domain_C9 0).2 (by decide),
   (bridge_dependencies_domain_C9 10).2 (by decide)⟩

/-- C1: for every list of enabled filter layers given in top-to-bottom
visual order (intensities drawn from the data model's `{25, 50, 75, 100}`),
`buildCacheKey` of `src/unnamed/part_006` reverses the list to
bottom-to-top order, rounds each layer's intensity to the nearest of
`{25, 50, 75, 100}`, and joins the layers as `id-intensity` segments
separated by `|`; an empty list yields `"original"`. -/
theorem buildCacheKey_reverses_C1 :
    ∀ fs : List FilterLayer,
      (∀ f ∈ fs, f.intensity = 25 ∨ f.intensity = 50 ∨ f.intensity = 75 ∨ f.intensity = 100) →
      FCMRev.buildCacheKey fs = specBuildCacheKey fs := by
  intro fs h
  unfold FCMRev.buildCacheKey specBuildCacheKey
  by_cases he : fs.isEmpty
  · rw [if_pos he, if_pos he]
  · rw [if_neg he, if_neg he]
    congr 1
    apply List.map_congr_left
    intro f hf
    have hm := h f (List.mem_reverse.mp hf)
    unfold layerPart
    rcases hm with h1 | h1 | h1 | h1 <;> rw [h1] <;> rfl

/-- Witness for C1 at a concrete two-layer stack (and implicitly at the
empty stack via the same theorem): the built key reverses to
bottom-to-top order. -/
theorem buildCacheKey_reverses_C1_witness :
    (∀ f ∈ ([⟨"humor", 75⟩, ⟨"simplify", 50⟩] : List FilterLayer),
      f.intensity = 25 ∨ f.intensity = 50 ∨ f.intensity = 75 ∨ f.intensity = 100) ∧
    FCMRev.buildCacheKey [⟨"humor", 75⟩, ⟨"simplify", 50⟩] =
      specBuildCacheKey [⟨"humor", 75⟩, ⟨"simplify", 50⟩] ∧
    FCMRev.buildCacheKey ([] : List FilterLayer) = specBuildCacheKey [] :=
  ⟨by decide, buildCacheKey_reverses_C1 _ (by decide),
    buildCacheKey_reverses_C1 [] (by decide)⟩

/-- C2 counterexample: with the cache containing exactly `"original"` and
`"simplify-50"` and the active chain `[formalize-75 (top), simplify-50
(bottom)]`, the single planned step's cache key is not the claimed
`"formalize-75|simplify-50"` (the code emits segments bottom-to-top). -/
theorem plan_minimality_C2_counterexample :
    (FCMRev.calculateGenerationPlan fsC2 cacheC2).map PlanStep.cacheKey ≠
      ["formalize-75|simplify-50"] := by
  decide

/-- C2 (amended): with that cache and chain, `calculateGenerationPlan`
returns exactly one step — not two — for cache key
`"simplify-50|formalize-75"`, whose `inputText` is the cached
`simplify-50` text. -/
theorem plan_minimality_C2_amended :
    FCMRev.calculateGenerationPlan fsC2 cacheC2 =
      [⟨0, cacheC2 "simplify-50", "formalize", 75, "simplify-50|formalize-75", "simplify-50"⟩] := by
  decide

theorem clear_preserves_original : ∀ (ks : List String) (c : Cache),
    FCM.clearInvalidatedCache c ks "original" = c "original" := by
  intro ks
  induction ks with
  | nil => intro c; rfl
  | cons k t ih =>
    intro c
    by_cases hk : k = "original"
    · have hstep : FCM.clearInvalidatedCache c (k :: t) = FCM.clearInvalidatedCache c t := by
        unfold FCM.clearInvalidatedCache
        rw [List.foldl_cons, if_pos hk]
      rw [hstep, ih]
    · have hstep : FCM.clearInvalidatedCache c (k :: t) =
          FCM.clearInvalidatedCache (fun x => if x = k then none else c x) t := by
        unfold FCM.clearInvalidatedCache
        rw [List.foldl_cons, if_neg hk]
      rw [hstep, ih]
      exact if_neg (Ne.symm hk)

/-- C5: for the two-layer stack `[simplify-50 (bottom), formalize-75
(top)]` with both step keys cached, the invalidation set for a change to
the bottom-most layer (index 0 in processing order) contains exactly the
bottom layer's own key and the combined two-layer key; clearing that set
removes exactly those entries, and the `"original"` entry is never
deleted (for any cache and any key set). -/
theorem invalidation_cascade_C5 :
    FCM.getInvalidatedCacheKeys fsC5 0 cacheC5 = ["simplify-50", "simplify-50|formalize-75"]
    ∧ FCM.clearInvalidatedCache cacheC5 (FCM.getInvalidatedCacheKeys fsC5 0 cacheC5)
        "simplify-50" = none
    ∧ FCM.clearInvalidatedCache cacheC5 (FCM.getInvalidatedCacheKeys fsC5 0 cacheC5)
        "simplify-50|formalize-75" = none
    ∧ (∀ k, k ∉ FCM.getInvalidatedCacheKeys fsC5 0 cacheC5 →
        FCM.clearInvalidatedCache cacheC5 (FCM.getInvalidatedCacheKeys fsC5 0 cacheC5) k =
          cacheC5 k)
    ∧ (∀ (c : Cache) (ks : List String),
        FCM.clearInvalidatedCache c ks "original" = c "original") := by
  refine ⟨by decide, by decide, by decide, ?_, fun c ks => clear_preserves_original ks c⟩
  intro k hk
  have hkeys : FCM.getInvalidatedCacheKeys fsC5 0 cacheC5 =
      ["simplify-50", "simplify-50|formalize-75"] := by decide
  rw [hkeys] at hk ⊢
  simp only [List.mem_cons, List.not_mem_nil, or_false, not_or] at hk
  obtain ⟨h1, h2⟩ := hk
  show (FCM.clearInvalidatedCache cacheC5 ["simplify-50", "simplify-50|formalize-75"]) k =
    cacheC5 k
  unfold FCM.clearInvalidatedCache
  simp only [List.foldl_cons, List.foldl_nil]
  rw [if_neg (by decide : ¬("simplify-50" : String) = "original"),
    if_neg (by decide : ¬("simplify-50|formalize-75" : String) = "original")]
  show (if k = "simplify-50|formalize-75" then none
    else if k = "simplify-50" then none else cacheC5 k) = cacheC5 k
  rw [if_neg h2, if_neg h1]

/-- Witness for C5: the `"original"` entry survives the clearing, and an
unrelated key is untouched. -/
theorem invalidation_cascade_C5_witness :
    FCM.clearInvalidatedCache cacheC5 (FCM.getInvalidatedCacheKeys fsC5 0 cacheC5) "original" =
      cacheC5 "original" ∧
    FCM.clearInvalidatedCache cacheC5 (FCM.getInvalidatedCacheKeys fsC5 0 cacheC5) "humor-25" =
      cacheC5 "humor-25" :=
  ⟨invalidation_cascade_C5.2.2.2.2 cacheC5 _,
   invalidation_cascade_C5.2.2.2.1 "humor-25" (by decide)⟩

theorem retryLoop_all_fail (g : Nat → Except String String)
    (hf : ∀ n, ∃ m, g n = Except.error m) :
    retryLoop g 3 0 = (GenStatus.error, 3) := by
  obtain ⟨m0, e0⟩ := hf 0
  obtain ⟨m1, e1⟩ := hf 1
  obtain ⟨m2, e2⟩ := hf 2
  show retryLoop g 3 0 = (GenStatus.error, 3)
  rw [show retryLoop g 3 0 = (match g 0 with
    | .ok _ => (GenStatus.complete, 1)
    | .error _ => retryLoop g 2 1) from rfl, e0]
  rw [show retryLoop g 2 1 = (match g 1 with
    | .ok _ => (GenStatus.complete, 2)
    | .error _ => retryLoop g 1 2) from rfl, e1]
  rw [show retryLoop g 1 2 = (match g 2 with
    | .ok _ => (GenStatus.complete, 3)
    | .error _ => retryLoop g 0 3) from rfl, e2]
  rfl

/-- C7: a grid or bridge task whose generation call always fails with a
provider error is attempted exactly 3 times and is then marked `error`,
and it does not prevent independent sibling tasks of the same plan from
being attempted (every coordinate of the plan still gets its own run,
whose outcome depends only on its own oracle); the same retry behaviour
holds for a bridge position with both dependency texts present. -/
theorem retry_termination_C7 :
    ∀ (g : String → Nat → Except String String) (coords : List String) (cd : String),
      cd ∈ coords →
      (∀ n, ∃ m, g cd n = Except.error m) →
      generateCoordinate (g cd) = (GenStatus.error, 3)
      ∧ (cd, (GenStatus.error, 3)) ∈ runAllTasks g coords
      ∧ (∀ c2 ∈ coords, (c2, generateCoordinate (g c2)) ∈ runAllTasks g coords)
      ∧ (∀ (g2 : Nat → Except String String) (tl tr : Option String),
          truthy tl = true → truthy tr = true → (∀ n, ∃ m, g2 n = Except.error m) →
          generatePosition g2 tl tr = (GenStatus.error, 3)) := by
  intro g coords cd hmem hfail
  refine ⟨retryLoop_all_fail _ hfail, ?_, ?_, ?_⟩
  · have heq : ((cd, (GenStatus.error, 3)) : String × (GenStatus × Nat)) =
        (cd, generateCoordinate (g cd)) := by
      rw [show generateCoordinate (g cd) = (GenStatus.error, 3)
        from retryLoop_all_fail _ hfail]
    rw [heq]
    show (fun x => (x, generateCoordinate (g x))) cd ∈
      coords.map fun x => (x, generateCoordinate (g x))
    exact List.mem_map_of_mem _ hmem
  · intro c2 h2
    show (fun x => (x, generateCoordinate (g x))) c2 ∈
      coords.map fun x => (x, generateCoordinate (g x))
    exact List.mem_map_of_mem _ h2
  · intro g2 tl tr htl htr hf2
    unfold generatePosition
    rw [if_neg (by rw [htl, htr]; simp)]
    exact retryLoop_all_fail _ hf2

/-- Witness for C7: with a two-coordinate plan in which `"0,0"` always
fails and `"1,0"` succeeds immediately, `"0,0"` ends `error` after 3
attempts while the sibling completes on its first attempt. -/
theorem retry_termination_C7_witness :
    generateCoordinate (gC7 "0,0") = (GenStatus.error, 3) ∧
    ("0,0", (GenStatus.error, 3)) ∈ runAllTasks gC7 ["0,0", "1,0"] ∧
    ("1,0", (GenStatus.complete, 1)) ∈ runAllTasks gC7 ["0,0", "1,0"] :=
  ⟨(retry_termination_C7 gC7 ["0,0", "1,0"] "0,0" (by decide)
      (fun n => ⟨"ProviderError: Overloaded", rfl⟩)).1,
   (retry_termination_C7 gC7 ["0,0", "1,0"] "0,0" (by decide)
      (fun n => ⟨"ProviderError: Overloaded", rfl⟩)).2.1,
   (show generateCoordinate (gC7 "1,0") = (GenStatus.complete, 1) from rfl) ▸
    (retry_termination_C7 gC7 ["0,0", "1,0"] "0,0" (by decide)
      (fun n => ⟨"ProviderError: Overloaded", rfl⟩)).2.2.1 "1,0" (by decide)⟩

theorem runStackAux_spec (g : Option String → String → Int → Except String String) :
    ∀ (steps : List PlanStep) (c : Cache) (idx : Nat)
      (lastText patch : Option String) (trace : List Nat),
      ((runStackAux g steps c idx lastText patch trace).errMsg = none ∧
        (runStackAux g steps c idx lastText patch trace).attempted =
          trace ++ steps.map PlanStep.stepIndex)
      ∨ (∃ j m s, steps[j]? = some s ∧
          (runStackAux g steps c idx lastText patch trace).errMsg =
            some ("Generation failed at step " ++ toString (idx + j + 1) ++ ": " ++ m) ∧
          (runStackAux g steps c idx lastText patch trace).failedSteps = [(s.cacheKey, m)] ∧
          (runStackAux g steps c idx lastText patch trace).attempted =
            trace ++ (steps.take (j + 1)).map PlanStep.stepIndex) := by
  intro steps
  induction steps with
  | nil =>
    intro c idx lastText patch trace
    left
    exact ⟨rfl, by simp [runStackAux]⟩
  | cons s rest ih =>
    intro c idx lastText patch trace
    cases hg : g (match patch with | some t => some t | none => s.inputText)
        s.filterId s.intensity with
    | ok text =>
      have hrw : runStackAux g (s :: rest) c idx lastText patch trace =
          runStackAux g rest (updateCache c s.cacheKey text) (idx + 1) (some text) (some text)
            (trace ++ [s.stepIndex]) := by
        simp only [runStackAux, hg]
      rw [hrw]
      rcases ih (updateCache c s.cacheKey text) (idx + 1) (some text) (some text)
          (trace ++ [s.stepIndex]) with ⟨h1, h2⟩ | ⟨j, m, s2, hj, he, hfld, ha⟩
      · left
        refine ⟨h1, ?_⟩
        rw [h2]
        simp
      · right
        refine ⟨j + 1, m, s2, by simpa using hj, ?_, hfld, ?_⟩
        · rw [show idx + (j + 1) + 1 = idx + 1 + j + 1 from by omega]
          exact he
        · rw [ha]
          simp
    | error m =>
      have hrw : runStackAux g (s :: rest) c idx lastText patch trace =
          ⟨c, [(s.cacheKey, m)],
            some ("Generation failed at step " ++ toString (idx + 1) ++ ": " ++ m),
            none, trace ++ [s.stepIndex]⟩ := by
        simp only [runStackAux, hg]
      rw [hrw]
      right
      exact ⟨0, m, s, by simp, rfl, rfl, by simp⟩

/-- C6: in the filter-stack executor `applyFilterStack`, either every step
of the plan runs without failure, or there is a failing step `j` such
that exactly the steps up to and including `j` were attempted — every
step above the failure is aborted rather than executed — and the failure
is reported as `Generation failed at step j+1` with the failing step's
cache key and error message recorded in `failedSteps`. -/
theorem filter_stack_abort_C6 :
    ∀ (g : Option String → String → Int → Except String String) (c : Cache)
      (plan : List PlanStep),
      ((applyFilterStack g c plan).errMsg = none ∧
        (applyFilterStack g c plan).attempted = plan.map PlanStep.stepIndex)
      ∨ (∃ j m s, plan[j]? = some s ∧
          (applyFilterStack g c plan).errMsg =
            some ("Generation failed at step " ++ toString (j + 1) ++ ": " ++ m) ∧
          (applyFilterStack g c plan).failedSteps = [(s.cacheKey, m)] ∧
          (applyFilterStack g c plan).attempted =
            (plan.take (j + 1)).map PlanStep.stepIndex) := by
  intro g c plan
  unfold applyFilterStack
  rcases runStackAux_spec g plan c 0 none none [] with ⟨h1, h2⟩ | ⟨j, m, s, hj, he, hf, ha⟩
  · left
    exact ⟨h1, by simpa using h2⟩
  · right
    exact ⟨j, m, s, hj, by simpa using he, hf, by simpa using ha⟩
